import Mathlib

/-!
Shallow embedding of the cart state engine of `src/cart-refactored-functional.js`
(vanilla-js-cart). The pure cart functions are translated directly; JS numbers
are modelled as `Int` in the typed core (prices and quantities in this program
are integral), and as `Rat` in the raw-value layer used by the validation and
hydration functions, where `typeof` checks are observable.
-/

namespace Cart

/-- `Product` record as consumed by the cart (id, name, price, image, description). -/
structure Product where
  id : String
  name : String
  price : Int
  image : String
  description : String
deriving Repr, DecidableEq

/-- `CartItem` line-item record: id, name, price snapshot, image, quantity. -/
structure CartItem where
  id : String
  name : String
  price : Int
  image : String
  quantity : Int
deriving Repr, DecidableEq

/-- `CartState`: `{ items: CartItem[] }`. -/
structure CartState where
  items : List CartItem
deriving Repr, DecidableEq

/-- `SHIPPING_CONFIG` constants record. -/
structure ShippingConfig where
  FREE_SHIPPING_THRESHOLD : Int
  SHIPPING_FEE : Int
deriving Repr, DecidableEq

/-- `SHIPPING_CONFIG = { FREE_SHIPPING_THRESHOLD: 5000, SHIPPING_FEE: 100 }`. -/
def SHIPPING_CONFIG : ShippingConfig :=
  { FREE_SHIPPING_THRESHOLD := 5000, SHIPPING_FEE := 100 }

/-- `createEmptyCart = () => ({ items: [] })`. -/
def createEmptyCart : CartState := { items := [] }

/-- `calculateTotalCount = (items) => items.reduce((total, item) => total + item.quantity, 0)`. -/
def calculateTotalCount (items : List CartItem) : Int :=
  items.foldl (fun total item => total + item.quantity) 0

/-- `calculateTotalPrice = (items) => items.reduce((total, item) => total + (item.price * item.quantity), 0)`. -/
def calculateTotalPrice (items : List CartItem) : Int :=
  items.foldl (fun total item => total + item.price * item.quantity) 0

/-- `calculateShippingFee = (totalPrice) => totalPrice >= FREE_SHIPPING_THRESHOLD ? 0 : SHIPPING_FEE`. -/
def calculateShippingFee (totalPrice : Int) : Int :=
  if SHIPPING_CONFIG.FREE_SHIPPING_THRESHOLD ≤ totalPrice then 0
  else SHIPPING_CONFIG.SHIPPING_FEE

/-- `calculateFinalTotal = (totalPrice, shippingFee) => totalPrice + shippingFee`. -/
def calculateFinalTotal (totalPrice shippingFee : Int) : Int :=
  totalPrice + shippingFee

/-- `findCartItemById = (items, productId) => items.find(item => item.id === productId)`. -/
def findCartItemById (items : List CartItem) (productId : String) : Option CartItem :=
  items.find? (fun item => item.id == productId)

/-- `createCartItem = (product, quantity = 1) => ({ id, name, price, image, quantity })`. -/
def createCartItem (product : Product) (quantity : Int) : CartItem :=
  { id := product.id, name := product.name, price := product.price
    image := product.image, quantity := quantity }

/-- `addItemToCart`: if an item with `product.id` exists, map over the items
incrementing the quantity of those whose id matches; otherwise append
`createCartItem(product, 1)`. -/
def addItemToCart (cartState : CartState) (product : Product) : CartState :=
  match findCartItemById cartState.items product.id with
  | some _ =>
      { cartState with
        items := cartState.items.map (fun item =>
          if item.id == product.id then { item with quantity := item.quantity + 1 }
          else item) }
  | none =>
      { cartState with items := cartState.items ++ [createCartItem product 1] }

/-- `removeItemFromCart = (cartState, productId) => ({ ...cartState, items: cartState.items.filter(item => item.id !== productId) })`. -/
def removeItemFromCart (cartState : CartState) (productId : String) : CartState :=
  { cartState with items := cartState.items.filter (fun item => item.id != productId) }

/-- `updateItemQuantity`: if `newQuantity <= 0` remove the item, else map over the
items replacing the quantity of those whose id matches. -/
def updateItemQuantity (cartState : CartState) (productId : String) (newQuantity : Int) : CartState :=
  if newQuantity ≤ 0 then removeItemFromCart cartState productId
  else
    { cartState with
      items := cartState.items.map (fun item =>
        if item.id == productId then { item with quantity := newQuantity }
        else item) }

/-- `clearCart = (cartState) => createEmptyCart()`. -/
def clearCart (_cartState : CartState) : CartState := createEmptyCart

/-! ### Raw-value layer for validation and hydration

`isValidCartItem` inspects JS runtime types (`typeof item.id === 'string'` …),
so its input is modelled as a record of JS values: a string, a number
(rational, since JS numbers need not be integers), or anything else. A falsy
array entry (null, undefined, …), which fails the leading `item &&` truthiness
test, is modelled as `none`. -/

/-- A JS value as far as the validation functions can distinguish it. -/
inductive JsVal where
  | vstr (s : String)
  | vnum (q : Rat)
  | vother
deriving Repr, DecidableEq

/-- `typeof v === 'string'`. -/
def JsVal.isString : JsVal → Bool
  | .vstr _ => true
  | _ => false

/-- `typeof v === 'number'`. -/
def JsVal.isNumber : JsVal → Bool
  | .vnum _ => true
  | _ => false

/-- `v > 0` evaluated on a value already known to be a number. -/
def JsVal.numGtZero : JsVal → Bool
  | .vnum q => decide (0 < q)
  | _ => false

/-- A line-item-shaped record with JS-typed fields. -/
structure RawItem where
  id : JsVal
  name : JsVal
  price : JsVal
  image : JsVal
  quantity : JsVal
deriving Repr, DecidableEq

/-- `isValidCartItem = (item) => item && typeof item.id === 'string' && typeof item.name === 'string' && typeof item.price === 'number' && typeof item.quantity === 'number' && item.quantity > 0`. -/
def isValidCartItem : Option RawItem → Bool
  | none => false
  | some item =>
      item.id.isString && item.name.isString && item.price.isNumber &&
      item.quantity.isNumber && item.quantity.numGtZero

/-- The parsed value found in storage under the cart key: either not an array
at all, or an array of (possibly falsy) line-item-shaped records. -/
inductive StoredValue where
  | notAnArray
  | arr (items : List (Option RawItem))
deriving Repr, DecidableEq

/-- `isValidCartState = (cartState) => cartState && Array.isArray(cartState.items) && cartState.items.every(isValidCartItem)`, applied to `{ items: savedItems }`. -/
def isValidCartState : StoredValue → Bool
  | .notAnArray => false
  | .arr items => items.all isValidCartItem

/-- The items of a stored value, empty when it is not an array. -/
def StoredValue.itemsOrEmpty : StoredValue → List (Option RawItem)
  | .notAnArray => []
  | .arr items => items

/-- `loadCartFromStorage`: `safeGetFromStorage` yields the parsed JSON or the
default `[]` (`none` models a missing or unparsable stored string, for which
the try/catch substitutes the default); the result is kept if
`isValidCartState({ items: savedItems })` holds, else `createEmptyCart()`. -/
def loadCartFromStorage (stored : Option StoredValue) : List (Option RawItem) :=
  let savedItems := stored.getD (StoredValue.arr [])
  if isValidCartState savedItems then savedItems.itemsOrEmpty else []

/-! ### Derived notions used by the claims -/

/-- The list of line-item ids of a state, in order. -/
def cartIds (s : CartState) : List String := s.items.map CartItem.id

/-- The CartState invariant: every line item has quantity at least 1 and no two
line items share an id (ids listed in insertion order). -/
def CartInv (s : CartState) : Prop :=
  (∀ it ∈ s.items, 1 ≤ it.quantity) ∧ (cartIds s).Nodup

instance (s : CartState) : Decidable (CartInv s) := by
  unfold CartInv
  infer_instance

/-- One engine operation, as exposed by the cart state engine. -/
inductive CartOp where
  | add (p : Product)
  | remove (productId : String)
  | setQuantity (productId : String) (quantity : Int)
  | clear
deriving Repr

/-- Dispatch an operation to the corresponding transition function. -/
def applyOp (s : CartState) : CartOp → CartState
  | .add p => addItemToCart s p
  | .remove pid => removeItemFromCart s pid
  | .setQuantity pid q => updateItemQuantity s pid q
  | .clear => clearCart s

/-! ### Helper lemmas -/

lemma list_map_id_of {α : Type} {l : List α} {f : α → α} (h : ∀ a ∈ l, f a = a) :
    l.map f = l := by
  induction l with
  | nil => rfl
  | cons x xs ih =>
      rw [List.map_cons, h x (List.mem_cons_self x xs),
        ih (fun a ha => h a (List.mem_cons_of_mem x ha))]

lemma nodup_decomp_ids {pre post : List CartItem} {it : CartItem}
    (hnd : ((pre ++ it :: post).map CartItem.id).Nodup) :
    (∀ a ∈ pre, a.id ≠ it.id) ∧ (∀ a ∈ post, a.id ≠ it.id) := by
  rw [List.map_append, List.map_cons] at hnd
  obtain ⟨_, h2, hdisj⟩ := List.nodup_append.mp hnd
  refine ⟨?_, ?_⟩
  · intro a ha heq
    exact hdisj (List.mem_map.mpr ⟨a, ha, rfl⟩) (by simp [heq])
  · intro a ha heq
    exact (List.nodup_cons.mp h2).1 (heq ▸ List.mem_map.mpr ⟨a, ha, rfl⟩)

lemma map_update_decomp (g : CartItem → CartItem) (pid : String)
    (pre post : List CartItem) (it : CartItem)
    (hnd : ((pre ++ it :: post).map CartItem.id).Nodup) (hit : it.id = pid) :
    (pre ++ it :: post).map
        (fun item => if item.id == pid then g item else item)
      = pre ++ g it :: post := by
  obtain ⟨hpre, hpost⟩ := nodup_decomp_ids hnd
  rw [List.map_append, List.map_cons]
  rw [list_map_id_of (fun a ha => by
    have hne : a.id ≠ pid := hit ▸ hpre a ha
    simp [hne])]
  rw [list_map_id_of (fun a ha => by
    have hne : a.id ≠ pid := hit ▸ hpost a ha
    simp [hne])]
  simp [hit]

lemma findCartItemById_eq_none {s : CartState} {pid : String}
    (h : ∀ x ∈ s.items, x.id ≠ pid) : findCartItemById s.items pid = none := by
  rw [findCartItemById, List.find?_eq_none]
  intro x hx
  simp [h x hx]

lemma findCartItemById_isSome {s : CartState} {pid : String}
    (h : ∃ x ∈ s.items, x.id = pid) : (findCartItemById s.items pid).isSome := by
  rw [findCartItemById, List.find?_isSome]
  obtain ⟨x, hx, hid⟩ := h
  exact ⟨x, hx, by simp [hid]⟩

lemma addItemToCart_absent_items (s : CartState) (p : Product)
    (h : ∀ x ∈ s.items, x.id ≠ p.id) :
    (addItemToCart s p).items = s.items ++ [createCartItem p 1] := by
  simp only [addItemToCart, findCartItemById_eq_none h]

lemma addItemToCart_present_map (s : CartState) (p : Product)
    (hex : ∃ x ∈ s.items, x.id = p.id) :
    (addItemToCart s p).items
      = s.items.map (fun item =>
          if item.id == p.id then { item with quantity := item.quantity + 1 }
          else item) := by
  obtain ⟨y, hy⟩ := Option.isSome_iff_exists.mp (findCartItemById_isSome hex)
  simp only [addItemToCart, hy]

lemma addItemToCart_present_items (s : CartState) (p : Product)
    (pre post : List CartItem) (it : CartItem)
    (hnd : (s.items.map CartItem.id).Nodup)
    (hs : s.items = pre ++ it :: post) (hit : it.id = p.id) :
    (addItemToCart s p).items
      = pre ++ { it with quantity := it.quantity + 1 } :: post := by
  have hex : ∃ x ∈ s.items, x.id = p.id := ⟨it, by rw [hs]; simp, hit⟩
  rw [addItemToCart_present_map s p hex, hs]
  rw [hs] at hnd
  exact map_update_decomp (fun item => { item with quantity := item.quantity + 1 })
    p.id pre post it hnd hit

lemma foldl_add_eq {α : Type} (g : α → Int) (l : List α) :
    ∀ a : Int, l.foldl (fun t x => t + g x) a = a + (l.map g).sum := by
  induction l with
  | nil => intro a; simp
  | cons x xs ih =>
      intro a
      rw [List.foldl_cons, List.map_cons, List.sum_cons, ih (a + g x)]
      ring

lemma calculateTotalCount_eq (items : List CartItem) :
    calculateTotalCount items = (items.map CartItem.quantity).sum := by
  rw [calculateTotalCount, foldl_add_eq CartItem.quantity items 0, zero_add]

lemma calculateTotalPrice_eq (items : List CartItem) :
    calculateTotalPrice items = (items.map (fun x => x.price * x.quantity)).sum := by
  rw [calculateTotalPrice, foldl_add_eq (fun x => x.price * x.quantity) items 0, zero_add]

/-! ### Concrete records used by witnesses and counterexamples -/

/-- A state holding one line item (id "1", price 10, quantity 2). -/
def witState : CartState :=
  { items := [{ id := "1", name := "A", price := 10, image := "i", quantity := 2 }] }

/-- A product whose id is already in `witState`, carrying a different price. -/
def witProductSame : Product :=
  { id := "1", name := "A2", price := 11, image := "j", description := "d" }

/-- A product whose id is not in `witState`. -/
def witProductNew : Product :=
  { id := "2", name := "B", price := 5, image := "k", description := "e" }

/-- A state whose single item has subtotal exactly 5000. -/
def boundaryState5000 : CartState :=
  { items := [{ id := "1", name := "A", price := 5000, image := "i", quantity := 1 }] }

/-- A state whose single item has subtotal 4999. -/
def boundaryState4999 : CartState :=
  { items := [{ id := "1", name := "A", price := 4999, image := "i", quantity := 1 }] }

/-- The rational 1/2, built directly so that kernel reduction works on it. -/
def halfRat : Rat := ⟨1, 2, by decide, Nat.coprime_one_left 2⟩

/-- A raw record that the code's validator accepts although its id and name are
empty and its quantity is not an integer. -/
def nonIntQuantityItem : RawItem :=
  { id := .vstr "", name := .vstr "", price := .vnum 1, image := .vother,
    quantity := .vnum halfRat }

/-- Two individually valid raw records sharing the id "1". -/
def dupItemA : RawItem :=
  { id := .vstr "1", name := .vstr "A", price := .vnum 10, image := .vstr "imgA",
    quantity := .vnum 2 }

/-- Second record with the same id "1" as `dupItemA`. -/
def dupItemB : RawItem :=
  { id := .vstr "1", name := .vstr "B", price := .vnum 20, image := .vstr "imgB",
    quantity := .vnum 3 }

/-- A product that is malformed in the spec's sense: empty id and name,
non-positive price. -/
def malformedProduct : Product :=
  { id := "", name := "", price := -5, image := "", description := "" }

/-- Modelled from the spec: a product is well-formed when id and name are
non-empty strings, price is a positive number, and image is a string (the
typed embedding makes image a string by construction). -/
def specWellFormedProduct (p : Product) : Bool :=
  !p.id.isEmpty && !p.name.isEmpty && decide (0 < p.price)

/-- Modelled from the spec: the per-item validity predicate as the spec words
it for C6 — non-empty string id, non-empty string name, a number price, and an
integer quantity strictly greater than 0. -/
def specItemValid (item : RawItem) : Bool :=
  (match item.id with | .vstr s => !s.isEmpty | _ => false) &&
  (match item.name with | .vstr s => !s.isEmpty | _ => false) &&
  item.price.isNumber &&
  (match item.quantity with
    | .vnum q => decide (0 < q) && decide (q.den = 1)
    | _ => false)

/-! ### Claim theorems -/

/-- C2: the shipping fee applied to a state's subtotal is 0 when the subtotal
reaches the free-shipping threshold (5000, inclusively) and the fixed fee 100
otherwise; in particular a subtotal of exactly 5000 yields fee 0 and a
subtotal of 4999 yields fee 100. -/
theorem shippingFee_spec (s : CartState) :
    (SHIPPING_CONFIG.FREE_SHIPPING_THRESHOLD ≤ calculateTotalPrice s.items →
        calculateShippingFee (calculateTotalPrice s.items) = 0) ∧
    (calculateTotalPrice s.items < SHIPPING_CONFIG.FREE_SHIPPING_THRESHOLD →
        calculateShippingFee (calculateTotalPrice s.items)
          = SHIPPING_CONFIG.SHIPPING_FEE) ∧
    (calculateTotalPrice s.items = 5000 →
        calculateShippingFee (calculateTotalPrice s.items) = 0) ∧
    (calculateTotalPrice s.items = 4999 →
        calculateShippingFee (calculateTotalPrice s.items) = 100) := by
  refine ⟨?_, ?_, ?_, ?_⟩
  · intro h
    simp only [calculateShippingFee, if_pos h]
  · intro h
    simp only [calculateShippingFee, if_neg (not_le.mpr h)]
  · intro h
    rw [h]
    simp only [calculateShippingFee, if_pos (by decide :
      SHIPPING_CONFIG.FREE_SHIPPING_THRESHOLD ≤ (5000 : Int))]
  · intro h
    rw [h]
    simp only [calculateShippingFee]
    rw [if_neg (by decide : ¬ SHIPPING_CONFIG.FREE_SHIPPING_THRESHOLD ≤ (4999 : Int))]
    decide

/-- Witness for C2 at subtotal 5000 and subtotal 4999. -/
theorem shippingFee_spec_witness :
    calculateShippingFee (calculateTotalPrice boundaryState5000.items) = 0 ∧
    calculateShippingFee (calculateTotalPrice boundaryState4999.items) = 100 :=
  ⟨(shippingFee_spec boundaryState5000).2.2.1 (by decide),
   (shippingFee_spec boundaryState4999).2.2.2 (by decide)⟩

/-- C5 counterexample: `addItemToCart` does not signal a validation error for a
malformed product (empty id, empty name, non-positive price); it silently
inserts it as a line item. -/
theorem addItem_inserts_malformed :
    specWellFormedProduct malformedProduct = false ∧
    (addItemToCart createEmptyCart malformedProduct).items
      = [{ id := "", name := "", price := -5, image := "", quantity := 1 }] := by
  exact ⟨by decide, by decide⟩

/-- C5 (amended): `addItemToCart` performs no validation and is a total function
that never fails: for every state and every product, well-formed or malformed,
the returned state contains a line item carrying the product's id — a
malformed product is silently inserted rather than rejected. -/
theorem addItem_total_no_validation (s : CartState) (p : Product) :
    ∃ it ∈ (addItemToCart s p).items, it.id = p.id := by
  by_cases hex : ∃ x ∈ s.items, x.id = p.id
  · obtain ⟨x, hx, hid⟩ := hex
    rw [addItemToCart_present_map s p ⟨x, hx, hid⟩]
    refine ⟨{ x with quantity := x.quantity + 1 }, ?_, hid⟩
    exact List.mem_map.mpr ⟨x, hx, by simp [hid]⟩
  · push_neg at hex
    rw [addItemToCart_absent_items s p hex]
    exact ⟨createCartItem p 1, by simp, rfl⟩

/-- C6 counterexample: the code's state validator accepts a record with empty
id, empty name and non-integer quantity 1/2, which the claim's predicate
(non-empty id and name, integer quantity) rejects. -/
theorem isValid_not_spec_equivalent :
    isValidCartState (StoredValue.arr [some nonIntQuantityItem]) = true ∧
    specItemValid nonIntQuantityItem = false := by
  exact ⟨by decide, by decide⟩

lemma isString_iff (v : JsVal) : v.isString = true ↔ ∃ s, v = JsVal.vstr s := by
  cases v <;> simp [JsVal.isString]

lemma isNumber_iff (v : JsVal) : v.isNumber = true ↔ ∃ q, v = JsVal.vnum q := by
  cases v <;> simp [JsVal.isNumber]

lemma numGtZero_iff (v : JsVal) :
    v.numGtZero = true ↔ ∃ q, v = JsVal.vnum q ∧ 0 < q := by
  cases v <;> simp [JsVal.numGtZero]

lemma isValidCartItem_iff (e : Option RawItem) :
    isValidCartItem e = true ↔
      ∃ it, e = some it ∧
        (∃ s, it.id = JsVal.vstr s) ∧
        (∃ s, it.name = JsVal.vstr s) ∧
        (∃ q : Rat, it.price = JsVal.vnum q) ∧
        (∃ q : Rat, it.quantity = JsVal.vnum q ∧ 0 < q) := by
  cases e with
  | none => simp [isValidCartItem]
  | some it =>
      simp only [isValidCartItem, Bool.and_eq_true, isString_iff, isNumber_iff,
        numGtZero_iff, Option.some.injEq, exists_eq_left']
      constructor
      · rintro ⟨⟨⟨⟨h1, h2⟩, h3⟩, _⟩, h5⟩
        exact ⟨h1, h2, h3, h5⟩
      · rintro ⟨h1, h2, h3, q, hq, hq0⟩
        exact ⟨⟨⟨⟨h1, h2⟩, h3⟩, ⟨q, hq⟩⟩, ⟨q, hq, hq0⟩⟩

/-- C6 (amended): `isValidCartState` on an items array is true iff every entry
is a truthy record whose id and name are strings (empty strings allowed),
whose price is a number, and whose quantity is a number strictly greater than
0 — integrality of the quantity and non-emptiness of id and name are not
checked; on a non-array value it is false. -/
theorem isValid_amended :
    (∀ items : List (Option RawItem),
      isValidCartState (StoredValue.arr items) = true ↔
        ∀ e ∈ items, ∃ it, e = some it ∧
          (∃ s, it.id = JsVal.vstr s) ∧
          (∃ s, it.name = JsVal.vstr s) ∧
          (∃ q : Rat, it.price = JsVal.vnum q) ∧
          (∃ q : Rat, it.quantity = JsVal.vnum q ∧ 0 < q)) ∧
    isValidCartState StoredValue.notAnArray = false := by
  refine ⟨?_, rfl⟩
  intro items
  rw [isValidCartState, List.all_eq_true]
  constructor
  · intro h e he
    exact (isValidCartItem_iff e).mp (h e he)
  · intro h e he
    exact (isValidCartItem_iff e).mpr (h e he)

/-- C8: hydration substitutes the empty state when the stored value is missing
or unparsable (defaulted to `[]`) or fails the `isValidCartState` check, and
returns exactly the supplied records when validation succeeds. -/
theorem hydration_spec (stored : Option StoredValue) :
    (stored = none → loadCartFromStorage stored = []) ∧
    (∀ v, stored = some v → isValidCartState v = false →
        loadCartFromStorage stored = []) ∧
    (∀ items, stored = some (StoredValue.arr items) →
        isValidCartState (StoredValue.arr items) = true →
        loadCartFromStorage stored = items) := by
  refine ⟨?_, ?_, ?_⟩
  · rintro rfl
    rfl
  · rintro v rfl h
    simp [loadCartFromStorage, h]
  · rintro items rfl h
    simp [loadCartFromStorage, h, StoredValue.itemsOrEmpty]

/-- Witness for C8: a valid one-record snapshot hydrates to exactly that
record; an invalid snapshot (non-array) hydrates to the empty state. -/
theorem hydration_spec_witness :
    loadCartFromStorage (some (StoredValue.arr [some dupItemA])) = [some dupItemA] ∧
    loadCartFromStorage (some StoredValue.notAnArray) = [] :=
  ⟨(hydration_spec (some (StoredValue.arr [some dupItemA]))).2.2
      [some dupItemA] rfl (by decide),
   (hydration_spec (some StoredValue.notAnArray)).2.1
      StoredValue.notAnArray rfl (by decide)⟩

/-- C10: hydration accepts a snapshot with two individually valid records that
share an id, returning a state containing both, rather than substituting the
empty state or merging them. -/
theorem hydration_accepts_duplicate_ids :
    dupItemA.id = dupItemB.id ∧
    isValidCartItem (some dupItemA) = true ∧
    isValidCartItem (some dupItemB) = true ∧
    loadCartFromStorage (some (StoredValue.arr [some dupItemA, some dupItemB]))
      = [some dupItemA, some dupItemB] := by
  exact ⟨by decide, by decide, by decide, by decide⟩

/-- C1: on a state with pairwise-distinct ids, adding a product whose id is
absent appends a fresh line item of quantity 1 whose snapshot is copied from
the product; adding a product whose id is present at some position leaves
every other item and the item's own position, price, name and image unchanged
and increments only its quantity by 1. -/
theorem addItem_spec (s : CartState) (p : Product) :
    ((∀ x ∈ s.items, x.id ≠ p.id) →
      (addItemToCart s p).items
        = s.items ++ [{ id := p.id, name := p.name, price := p.price,
                        image := p.image, quantity := 1 }]) ∧
    ((s.items.map CartItem.id).Nodup →
      ∀ pre it post, s.items = pre ++ it :: post → it.id = p.id →
        (addItemToCart s p).items
          = pre ++ { it with quantity := it.quantity + 1 } :: post) := by
  constructor
  · intro h
    rw [addItemToCart_absent_items s p h]
    rfl
  · intro hnd pre it post hs hit
    exact addItemToCart_present_items s p pre post it hnd hs hit

/-- Witness for C1: appending a new id to `witState` and re-adding the present
id "1". -/
theorem addItem_spec_witness :
    (addItemToCart witState witProductNew).items
      = witState.items ++ [{ id := "2", name := "B", price := 5, image := "k",
                             quantity := 1 }] ∧
    (addItemToCart witState witProductSame).items
      = [] ++ { id := "1", name := "A", price := 10, image := "i",
                quantity := 2 + 1 } :: [] :=
  ⟨(addItem_spec witState witProductNew).1 (by decide),
   (addItem_spec witState witProductSame).2 (by decide) []
      { id := "1", name := "A", price := 10, image := "i", quantity := 2 } []
      rfl rfl⟩

/-- C3: setting quantity at most 0 is the same transition as removal, for any
id, present or absent; setting a positive quantity on a present item (state
with distinct ids) replaces exactly that item's quantity, keeping its position
and its id/name/price/image snapshot; setting a positive quantity for an
absent id leaves the state unchanged. -/
theorem setQuantity_spec (s : CartState) (pid : String) (q : Int) :
    (q ≤ 0 → updateItemQuantity s pid q = removeItemFromCart s pid) ∧
    ((s.items.map CartItem.id).Nodup → 0 < q →
      ∀ pre it post, s.items = pre ++ it :: post → it.id = pid →
        (updateItemQuantity s pid q).items
          = pre ++ { it with quantity := q } :: post) ∧
    (0 < q → (∀ x ∈ s.items, x.id ≠ pid) → updateItemQuantity s pid q = s) := by
  refine ⟨?_, ?_, ?_⟩
  · intro h
    simp only [updateItemQuantity, if_pos h]
  · intro hnd hq pre it post hs hit
    simp only [updateItemQuantity, if_neg (not_le.mpr hq)]
    rw [hs] at hnd
    rw [hs]
    exact map_update_decomp (fun item => { item with quantity := q })
      pid pre post it hnd hit
  · intro hq h
    obtain ⟨items⟩ := s
    simp only [updateItemQuantity, if_neg (not_le.mpr hq)]
    rw [list_map_id_of (fun a ha => by simp [h a ha])]

/-- Witness for C3: quantity 0 removes, quantity 5 on the present id "1"
replaces the quantity in place, quantity 5 on the absent id "9" is a no-op. -/
theorem setQuantity_spec_witness :
    updateItemQuantity witState "1" 0 = removeItemFromCart witState "1" ∧
    (updateItemQuantity witState "1" 5).items
      = [] ++ { id := "1", name := "A", price := 10, image := "i",
                quantity := 5 } :: [] ∧
    updateItemQuantity witState "9" 5 = witState :=
  ⟨(setQuantity_spec witState "1" 0).1 (by decide),
   (setQuantity_spec witState "1" 5).2.1 (by decide) (by decide) []
      { id := "1", name := "A", price := 10, image := "i", quantity := 2 } []
      rfl rfl,
   (setQuantity_spec witState "9" 5).2.2 (by decide) (by decide)⟩

/-- C7: the total count is 0 on the empty state, and adding any product to a
state with pairwise-distinct ids increases the total count by exactly 1. -/
theorem totalCount_addItem (s : CartState) (p : Product)
    (hnd : (s.items.map CartItem.id).Nodup) :
    calculateTotalCount createEmptyCart.items = 0 ∧
    calculateTotalCount (addItemToCart s p).items
      = calculateTotalCount s.items + 1 := by
  refine ⟨rfl, ?_⟩
  by_cases hex : ∃ x ∈ s.items, x.id = p.id
  · obtain ⟨x, hx, hxid⟩ := hex
    obtain ⟨pre, post, hs⟩ := List.append_of_mem hx
    rw [addItemToCart_present_items s p pre post x hnd hs hxid, hs]
    simp only [calculateTotalCount_eq, List.map_append, List.map_cons,
      List.sum_append, List.sum_cons]
    ring
  · push_neg at hex
    rw [addItemToCart_absent_items s p hex]
    simp only [calculateTotalCount_eq, List.map_append, List.sum_append,
      createCartItem, List.map_cons, List.map_nil, List.sum_cons, List.sum_nil]
    ring

/-- Witness for C7 on `witState` with a present and an absent product id. -/
theorem totalCount_addItem_witness :
    calculateTotalCount (addItemToCart witState witProductSame).items
      = calculateTotalCount witState.items + 1 ∧
    calculateTotalCount (addItemToCart witState witProductNew).items
      = calculateTotalCount witState.items + 1 :=
  ⟨(totalCount_addItem witState witProductSame (by decide)).2,
   (totalCount_addItem witState witProductNew (by decide)).2⟩

/-- C9: on a state with pairwise-distinct ids, adding a product whose id is
absent raises the subtotal by the product's price, while adding a product
whose id is already stored raises the subtotal by the stored item's snapshot
price, whatever price the product carries. -/
theorem subtotal_addItem (s : CartState) (p : Product)
    (hnd : (s.items.map CartItem.id).Nodup) :
    (findCartItemById s.items p.id = none →
        calculateTotalPrice (addItemToCart s p).items
          = calculateTotalPrice s.items + p.price) ∧
    (∀ it, findCartItemById s.items p.id = some it →
        calculateTotalPrice (addItemToCart s p).items
          = calculateTotalPrice s.items + it.price) := by
  constructor
  · intro hfind
    rw [findCartItemById, List.find?_eq_none] at hfind
    have habs : ∀ x ∈ s.items, x.id ≠ p.id := by
      intro x hx
      have := hfind x hx
      simpa using this
    rw [addItemToCart_absent_items s p habs]
    simp only [calculateTotalPrice_eq, List.map_append, List.sum_append,
      createCartItem, List.map_cons, List.map_nil, List.sum_cons, List.sum_nil]
    ring
  · intro it hfind
    rw [findCartItemById] at hfind
    have hmem := List.mem_of_find?_eq_some hfind
    have hid : it.id = p.id := by simpa using List.find?_some hfind
    obtain ⟨pre, post, hs⟩ := List.append_of_mem hmem
    rw [addItemToCart_present_items s p pre post it hnd hs hid, hs]
    simp only [calculateTotalPrice_eq, List.map_append, List.map_cons,
      List.sum_append, List.sum_cons]
    ring

/-- Witness for C9: the absent id raises the subtotal by the product price 5;
re-adding id "1" raises it by the stored snapshot price 10, not by the price
11 carried by the product. -/
theorem subtotal_addItem_witness :
    calculateTotalPrice (addItemToCart witState witProductNew).items
      = calculateTotalPrice witState.items + 5 ∧
    calculateTotalPrice (addItemToCart witState witProductSame).items
      = calculateTotalPrice witState.items + 10 :=
  ⟨(subtotal_addItem witState witProductNew (by decide)).1 (by decide),
   (subtotal_addItem witState witProductSame (by decide)).2
      { id := "1", name := "A", price := 10, image := "i", quantity := 2 }
      (by decide)⟩

lemma cartState_eq_of_items {s t : CartState} (h : s.items = t.items) : s = t := by
  cases s
  cases t
  cases h
  rfl

lemma ids_map_update (pid : String) (g : CartItem → CartItem)
    (hg : ∀ a, (g a).id = a.id) (l : List CartItem) :
    (l.map (fun item => if item.id == pid then g item else item)).map CartItem.id
      = l.map CartItem.id := by
  rw [List.map_map]
  apply List.map_congr_left
  intro a _
  by_cases hc : (a.id == pid) = true
  · simp only [Function.comp_apply, if_pos hc]
    exact hg a
  · simp only [Function.comp_apply, if_neg hc]

lemma mapUpdate_inv (s s' : CartState) (pid : String) (g : CartItem → CartItem)
    (hg : ∀ a, (g a).id = a.id)
    (hgq : ∀ a ∈ s.items, 1 ≤ a.quantity → 1 ≤ (g a).quantity)
    (hs' : s'.items
      = s.items.map (fun item => if item.id == pid then g item else item))
    (h : CartInv s) :
    CartInv s' ∧ cartIds s' = cartIds s := by
  obtain ⟨hquant, hnd⟩ := h
  have hids : cartIds s' = cartIds s := by
    rw [cartIds, hs', ids_map_update pid g hg s.items, cartIds]
  refine ⟨⟨?_, ?_⟩, hids⟩
  · intro x hx
    rw [hs'] at hx
    obtain ⟨a, ha, rfl⟩ := List.mem_map.mp hx
    by_cases hc : (a.id == pid) = true
    · simp only [if_pos hc]
      exact hgq a ha (hquant a ha)
    · simp only [if_neg hc]
      exact hquant a ha
  · rw [hids]
    exact hnd

lemma filter_mem_superset {l m : List String} (h : ∀ x ∈ l, x ∈ m) :
    l.filter (fun x => decide (x ∈ m)) = l :=
  List.filter_eq_self.mpr (fun a ha => decide_eq_true (h a ha))

lemma map_id_filter (pid : String) (l : List CartItem) :
    (l.filter (fun it => it.id != pid)).map CartItem.id
      = (l.map CartItem.id).filter (fun x => x != pid) := by
  induction l with
  | nil => rfl
  | cons a rest ih =>
      by_cases hc : (a.id != pid) = true
      · simp [List.filter_cons, hc, ih]
      · simp only [Bool.not_eq_true] at hc
        simp [List.filter_cons, hc, ih]

lemma remove_order (s : CartState) (pid : String) :
    cartIds (removeItemFromCart s pid)
      = (cartIds s).filter
          (fun x => decide (x ∈ cartIds (removeItemFromCart s pid))) := by
  have hids : cartIds (removeItemFromCart s pid)
      = (cartIds s).filter (fun x => x != pid) := by
    simp only [cartIds, removeItemFromCart]
    exact map_id_filter pid s.items
  rw [hids]
  refine (List.filter_congr ?_).symm
  intro x hx
  by_cases hxp : (x != pid) = true
  · have hmem : x ∈ (cartIds s).filter (fun y => y != pid) :=
      List.mem_filter.mpr ⟨hx, hxp⟩
    rw [decide_eq_true hmem, hxp]
  · have hnm : x ∉ (cartIds s).filter (fun y => y != pid) := fun hmem =>
      hxp (List.mem_filter.mp hmem).2
    simp only [Bool.not_eq_true] at hxp
    rw [decide_eq_false hnm, hxp]

lemma remove_inv (s : CartState) (pid : String) (h : CartInv s) :
    CartInv (removeItemFromCart s pid) ∧
    (∀ x, (cartIds s).head? = some x →
        x ∈ cartIds (removeItemFromCart s pid) →
        (cartIds (removeItemFromCart s pid)).head? = some x) := by
  obtain ⟨hquant, hnd⟩ := h
  have hsub : List.Sublist (s.items.filter (fun item => item.id != pid)) s.items :=
    List.filter_sublist s.items
  have hids : List.Sublist (cartIds (removeItemFromCart s pid)) (cartIds s) := by
    simp only [cartIds, removeItemFromCart]
    exact List.Sublist.map CartItem.id hsub
  refine ⟨⟨?_, ?_⟩, ?_⟩
  · intro x hx
    exact hquant x (hsub.subset hx)
  · exact List.Nodup.sublist hids hnd
  · intro x hhead hxmem
    have hxne : x ≠ pid := by
      simp only [cartIds, removeItemFromCart] at hxmem
      obtain ⟨b, hb, rfl⟩ := List.mem_map.mp hxmem
      have := (List.mem_filter.mp hb).2
      simpa using this
    cases hitems : s.items with
    | nil =>
        rw [cartIds, hitems] at hhead
        simp at hhead
    | cons a rest =>
        rw [cartIds, hitems] at hhead
        simp only [List.map_cons, List.head?_cons, Option.some.injEq] at hhead
        have hane : (a.id != pid) = true := by
          simp [bne_iff_ne, hhead, hxne]
        simp only [cartIds, removeItemFromCart, hitems, List.filter_cons, hane,
          if_true, List.map_cons, List.head?_cons]
        exact congrArg some hhead

/-- C4: the CartState invariant — every quantity at least 1, pairwise-distinct
ids, insertion order preserved — holds for the empty state and is preserved by
add, remove, set-quantity and clear on every state satisfying it. Order
preservation is stated as: the resulting id list is exactly the original id
list filtered to the ids that survive the operation — so every surviving item
keeps its original relative position, the first-added survivor staying first —
followed only by ids that were not in the state before (new items are
appended at the end). -/
theorem cart_invariant_spec :
    CartInv createEmptyCart ∧
    (∀ s op, CartInv s →
      CartInv (applyOp s op) ∧
      (∃ t, cartIds (applyOp s op)
            = (cartIds s).filter (fun x => decide (x ∈ cartIds (applyOp s op))) ++ t ∧
          ∀ x ∈ t, x ∉ cartIds s) ∧
      (∀ x, (cartIds s).head? = some x → x ∈ cartIds (applyOp s op) →
          (cartIds (applyOp s op)).head? = some x)) := by
  refine ⟨⟨by simp [createEmptyCart], by simp [cartIds, createEmptyCart]⟩, ?_⟩
  intro s op h
  match op with
  | .add p =>
      by_cases hex : ∃ x ∈ s.items, x.id = p.id
      · have hs' : (applyOp s (.add p)).items
            = s.items.map (fun item =>
                if item.id == p.id then { item with quantity := item.quantity + 1 }
                else item) :=
          addItemToCart_present_map s p hex
        obtain ⟨hinv, hids⟩ := mapUpdate_inv s (applyOp s (.add p)) p.id
          (fun a => { a with quantity := a.quantity + 1 }) (fun a => rfl)
          (fun a _ h1 => by
            show (1 : Int) ≤ a.quantity + 1
            omega)
          hs' h
        refine ⟨hinv, ⟨[], ?_, ?_⟩, ?_⟩
        · rw [hids, List.append_nil]
          exact (filter_mem_superset (fun x hx => hx)).symm
        · intro x hx
          simp at hx
        · intro x hh hm
          rw [hids]
          exact hh
      · push_neg at hex
        have hitems' : (applyOp s (.add p)).items
            = s.items ++ [createCartItem p 1] :=
          addItemToCart_absent_items s p hex
        have hids' : cartIds (applyOp s (.add p)) = cartIds s ++ [p.id] := by
          rw [cartIds, hitems', List.map_append, cartIds]
          rfl
        have hpid : p.id ∉ cartIds s := by
          simp only [cartIds]
          intro ha
          obtain ⟨b, hb, hbid⟩ := List.mem_map.mp ha
          exact hex b hb hbid
        obtain ⟨hquant, hnd⟩ := h
        refine ⟨⟨?_, ?_⟩, ⟨[p.id], ?_, ?_⟩, ?_⟩
        · intro x hx
          rw [hitems'] at hx
          rcases List.mem_append.mp hx with hx | hx
          · exact hquant x hx
          · rw [List.mem_singleton.mp hx]
            exact le_refl 1
        · rw [hids', List.nodup_append]
          refine ⟨hnd, List.nodup_singleton _, ?_⟩
          intro a ha hamem
          rw [List.mem_singleton.mp hamem] at ha
          exact hpid ha
        · rw [hids',
            filter_mem_superset (fun x hx => List.mem_append_left [p.id] hx)]
        · intro x hx
          rw [List.mem_singleton.mp hx]
          exact hpid
        · intro x hh hm
          rw [hids']
          cases hitems : s.items with
          | nil =>
              rw [cartIds, hitems] at hh
              simp at hh
          | cons a rest =>
              rw [cartIds, hitems] at hh
              simp only [List.map_cons, List.head?_cons, Option.some.injEq] at hh
              rw [cartIds, hitems]
              simp only [List.map_cons, List.cons_append, List.head?_cons]
              exact congrArg some hh
  | .remove pid =>
      obtain ⟨h1, h3⟩ := remove_inv s pid h
      refine ⟨h1, ⟨[], ?_, ?_⟩, h3⟩
      · rw [List.append_nil]
        exact remove_order s pid
      · intro x hx
        simp at hx
  | .setQuantity pid q =>
      by_cases hq : q ≤ 0
      · have hSt : applyOp s (.setQuantity pid q) = removeItemFromCart s pid := by
          simp only [applyOp, updateItemQuantity, if_pos hq]
        rw [hSt]
        obtain ⟨h1, h3⟩ := remove_inv s pid h
        refine ⟨h1, ⟨[], ?_, ?_⟩, h3⟩
        · rw [List.append_nil]
          exact remove_order s pid
        · intro x hx
          simp at hx
      · push_neg at hq
        have hs' : (applyOp s (.setQuantity pid q)).items
            = s.items.map (fun item =>
                if item.id == pid then { item with quantity := q } else item) := by
          simp only [applyOp, updateItemQuantity, if_neg (not_le.mpr hq)]
        obtain ⟨hinv, hids⟩ := mapUpdate_inv s (applyOp s (.setQuantity pid q)) pid
          (fun a => { a with quantity := q }) (fun a => rfl)
          (fun a _ _ => by
            show (1 : Int) ≤ q
            omega)
          hs' h
        refine ⟨hinv, ⟨[], ?_, ?_⟩, ?_⟩
        · rw [hids, List.append_nil]
          exact (filter_mem_superset (fun x hx => hx)).symm
        · intro x hx
          simp at hx
        · intro x hh hm
          rw [hids]
          exact hh
  | .clear =>
      have hclear : applyOp s .clear = createEmptyCart := rfl
      rw [hclear]
      have h0 : cartIds createEmptyCart = ([] : List String) := rfl
      refine ⟨⟨by simp [createEmptyCart], by simp [cartIds, createEmptyCart]⟩,
        ⟨[], ?_, ?_⟩, ?_⟩
      · rw [h0, List.append_nil]
        symm
        simp
      · intro x hx
        simp at hx
      · intro x hh hm
        rw [h0] at hm
        simp at hm

/-- Witness for C4: the invariant survives re-adding the present product and
removing id "1" on the one-item state `witState`. -/
theorem cart_invariant_spec_witness :
    CartInv (applyOp witState (CartOp.add witProductSame)) ∧
    CartInv (applyOp witState (CartOp.remove "1")) :=
  ⟨(cart_invariant_spec.2 witState (CartOp.add witProductSame) (by decide)).1,
   (cart_invariant_spec.2 witState (CartOp.remove "1") (by decide)).1⟩

end Cart
